import Mathlib

/-!
# Bonding-curve visualizer: the numeric model of `src/app/page.js`

A shallow embedding of the component `InteractiveBondingCurve`:

* the two memoised computations `pricePerIncrementData` (the increment
  schedule) and `priceCurveData` (the sampled price curve);
* the component state and its four state-changing handlers
  (`handleTokenReservesInputChange`, `changeTokenReserves`,
  `handleSolReservesChange`, `applyPreset`) together with the table `presets`.

JavaScript numbers are embedded as exact rationals `ℚ`: unless it names the
binary64 model, a statement below is a statement about the formulas over exact
arithmetic; rounding and the special values `Infinity` and `-Infinity` are
outside that model.  The increment schedule is embedded a second time, as
`pricePerIncrementDataBinary64`, with every arithmetic operation followed by
the rounding to the nearest IEEE-754 binary64 number that a JavaScript engine
applies; it shows where the rounded schedule departs from the exact one.

Division by zero, which JavaScript answers with `Infinity` or `NaN`, is `0` in
`ℚ`; the theorems on computed prices and costs assume
`virtualTokenReserves > realTokenReserves`, under which no denominator of the
source vanishes.  `NaN` as the result of `parseFloat` on a non-numeric string is
embedded as `none`.  The `while` and `for` loops take a fuel argument that
counts evaluations of the loop condition and return `none` when it runs out;
every theorem on a loop of the exact model shows that 101 units of fuel give a
result.
-/

namespace BondingCurve

/-! ## Data model -/

/-- Element pushed by the loop of `pricePerIncrementData` (page.js, lines 51-57). -/
structure IncrementPoint where
  tokensBought : ℚ
  incrementCost : ℚ
  incrementPrice : ℚ
  averagePrice : ℚ
  solTotal : ℚ
deriving DecidableEq

/-- Element pushed by `priceCurveData` (page.js, lines 76-80 and 91-95). -/
structure CurvePoint where
  tokensSold : ℚ
  price : ℚ
  solRequired : ℚ
deriving DecidableEq

/-- The constant `realTokenReserves` (page.js, line 11). -/
def realTokenReserves : ℚ := 800000000

/-- The constant `tokenIncrement` (page.js, line 12). -/
def tokenIncrement : ℚ := 10000000

/-! ## The increment schedule -/

/-- The `while` loop of `pricePerIncrementData` (page.js, lines 39-64), with the
two constants `realTokenReserves` and `tokenIncrement` taken as the parameters
`rtr` and `inc`.  The loop variables are `points`, `cumulativeTokens` and
`previousSolRequired`; one unit of fuel is spent per evaluation of the loop
condition. -/
def pricePerIncrementLoop (virtualSolReserves virtualTokenReserves rtr inc : ℚ) :
    Nat → List IncrementPoint → ℚ → ℚ → Option (List IncrementPoint)
  | 0, _, _, _ => none
  | fuel + 1, points, cumulativeTokens, previousSolRequired =>
    if cumulativeTokens < rtr then
      let nextIncrementAmount := min inc (rtr - cumulativeTokens)
      if nextIncrementAmount ≤ 0 then some points
      else
        let k := virtualSolReserves * virtualTokenReserves
        let newVirtualSolReserves :=
          k / (virtualTokenReserves - cumulativeTokens - nextIncrementAmount)
        let solRequired := newVirtualSolReserves - virtualSolReserves
        let incrementCost := solRequired - previousSolRequired
        let incrementPrice := incrementCost / nextIncrementAmount
        let points1 := points ++ [{
          tokensBought := cumulativeTokens + nextIncrementAmount
          incrementCost := incrementCost
          incrementPrice := incrementPrice
          averagePrice := solRequired / (cumulativeTokens + nextIncrementAmount)
          solTotal := solRequired }]
        if points1.length > 100 then some points1
        else
          pricePerIncrementLoop virtualSolReserves virtualTokenReserves rtr inc fuel
            points1 (cumulativeTokens + nextIncrementAmount) solRequired
    else some points

/-- The increment schedule `pricePerIncrementData` (page.js, lines 33-67) for the
state values `virtualSolReserves`, `virtualTokenReserves`. -/
def pricePerIncrementData (fuel : Nat) (virtualSolReserves virtualTokenReserves : ℚ) :
    Option (List IncrementPoint) :=
  pricePerIncrementLoop virtualSolReserves virtualTokenReserves
    realTokenReserves tokenIncrement fuel [] 0 0

/-! ## The increment schedule in binary64 arithmetic -/

/-- Floor of the binary logarithm, by halving; `fuel` bounds the number of halvings. -/
def log2Fuel : Nat → Nat → Nat
  | 0, _ => 0
  | fuel + 1, n => if 2 ≤ n then log2Fuel fuel (n / 2) + 1 else 0

/-- Floor of the binary logarithm of a natural number (`0` for `0` and `1`). -/
def floorLog2 (n : Nat) : Nat := log2Fuel n n

/-- Rounding of a rational to the nearest IEEE-754 binary64 number, ties to even:
the value a JavaScript Number takes when the exact result of an operation is `x`.
With `2^e ≤ |x| < 2^(e+1)`, the quotient `|x| / 2^(e-52) = a / b` is rounded to
the integer `m`, and the result is `m * 2^(e-52)` with the sign of `x`.
The result is `none` where binary64 leaves the normal numbers: when `|x| < 2^(-1022)`
(subnormal) and when the rounded magnitude reaches `2^1024` (`Infinity`). -/
def roundBinary64 (x : ℚ) : Option ℚ :=
  if x = 0 then some 0
  else
    let n : Nat := x.num.natAbs
    let d : Nat := x.den
    let e0 : Int := (floorLog2 n : Int) - (floorLog2 d : Int)
    let e : Int := if d * 2 ^ e0.toNat ≤ n * 2 ^ (-e0).toNat then e0 else e0 - 1
    let a : Nat := n * 2 ^ (52 - e).toNat
    let b : Nat := d * 2 ^ (e - 52).toNat
    let q : Nat := a / b
    let r : Nat := a % b
    let m : Nat := if 2 * r > b ∨ (2 * r = b ∧ q % 2 = 1) then q + 1 else q
    let y : ℚ := ((m * 2 ^ (e - 52).toNat : Nat) : ℚ) / ((2 ^ (52 - e).toNat : Nat) : ℚ)
    if e < -1022 ∨ ((2 ^ 1024 : Nat) : ℚ) ≤ y then none
    else some (if x < 0 then -y else y)

/-- JavaScript `a + b` on Numbers: the exact sum, rounded. -/
def addBinary64 (a b : ℚ) : Option ℚ := roundBinary64 (a + b)

/-- JavaScript `a - b` on Numbers: the exact difference, rounded. -/
def subBinary64 (a b : ℚ) : Option ℚ := roundBinary64 (a - b)

/-- JavaScript `a * b` on Numbers: the exact product, rounded. -/
def mulBinary64 (a b : ℚ) : Option ℚ := roundBinary64 (a * b)

/-- JavaScript `a / b` on Numbers: the exact quotient, rounded; `none` for a zero
divisor, where JavaScript answers `Infinity` or `NaN`. -/
def divBinary64 (a b : ℚ) : Option ℚ := if b = 0 then none else roundBinary64 (a / b)

/-- The `while` loop of `pricePerIncrementData` (page.js, lines 39-64) as a JavaScript
engine runs it: the same statements as `pricePerIncrementLoop`, each `+`, `-` and `/`
followed by the rounding to binary64; `k` is the product computed on line 35.
Comparisons and `Math.min` are exact on Numbers.  The result is `none` when the fuel
runs out or when an operation leaves the range modelled by `roundBinary64`. -/
def pricePerIncrementLoopBinary64 (virtualSolReserves virtualTokenReserves rtr inc k : ℚ) :
    Nat → List IncrementPoint → ℚ → ℚ → Option (List IncrementPoint)
  | 0, _, _, _ => none
  | fuel + 1, points, cumulativeTokens, previousSolRequired =>
    if cumulativeTokens < rtr then do
      let remaining ← subBinary64 rtr cumulativeTokens
      let nextIncrementAmount := min inc remaining
      if nextIncrementAmount ≤ 0 then pure points
      else do
        let afterSold ← subBinary64 virtualTokenReserves cumulativeTokens
        let denominator ← subBinary64 afterSold nextIncrementAmount
        let newVirtualSolReserves ← divBinary64 k denominator
        let solRequired ← subBinary64 newVirtualSolReserves virtualSolReserves
        let incrementCost ← subBinary64 solRequired previousSolRequired
        let incrementPrice ← divBinary64 incrementCost nextIncrementAmount
        let tokensBought ← addBinary64 cumulativeTokens nextIncrementAmount
        let averagePrice ← divBinary64 solRequired tokensBought
        let points1 := points ++ [{
          tokensBought := tokensBought
          incrementCost := incrementCost
          incrementPrice := incrementPrice
          averagePrice := averagePrice
          solTotal := solRequired }]
        if points1.length > 100 then pure points1
        else
          pricePerIncrementLoopBinary64 virtualSolReserves virtualTokenReserves rtr inc k
            fuel points1 tokensBought solRequired
    else pure points

/-- The increment schedule `pricePerIncrementData` (page.js, lines 33-67) in binary64
arithmetic, for state values that are binary64 numbers. -/
def pricePerIncrementDataBinary64 (fuel : Nat) (virtualSolReserves virtualTokenReserves : ℚ) :
    Option (List IncrementPoint) := do
  let k ← mulBinary64 virtualSolReserves virtualTokenReserves
  pricePerIncrementLoopBinary64 virtualSolReserves virtualTokenReserves
    realTokenReserves tokenIncrement k fuel [] 0 0

/-! ## The price curve -/

/-- The `for` loop of `priceCurveData` (page.js, lines 82-96); the loop variable is
`tokensSold`, advanced by `maxTokens/100` after each pass. -/
def priceCurveLoop (virtualSolReserves virtualTokenReserves maxTokens : ℚ) :
    Nat → List CurvePoint → ℚ → Option (List CurvePoint)
  | 0, _, _ => none
  | fuel + 1, points, tokensSold =>
    if tokensSold ≤ maxTokens then
      let k := virtualSolReserves * virtualTokenReserves
      let newVirtualSolReserves := k / (virtualTokenReserves - tokensSold)
      let solRequired := newVirtualSolReserves - virtualSolReserves
      let instantPrice := newVirtualSolReserves / (virtualTokenReserves - tokensSold)
      priceCurveLoop virtualSolReserves virtualTokenReserves maxTokens fuel
        (points ++ [{
          tokensSold := tokensSold
          price := instantPrice * 1000000
          solRequired := solRequired }])
        (tokensSold + maxTokens / 100)
    else some points

/-- The sampled curve `priceCurveData` (page.js, lines 70-99). -/
def priceCurveData (fuel : Nat) (virtualSolReserves virtualTokenReserves : ℚ) :
    Option (List CurvePoint) :=
  let maxTokens := min realTokenReserves 790000000
  priceCurveLoop virtualSolReserves virtualTokenReserves maxTokens fuel
    [{ tokensSold := 0
       price := (virtualSolReserves / virtualTokenReserves) * 1000000
       solRequired := 0 }]
    (maxTokens / 100)

/-! ## Component state and handlers -/

/-- The three `useState` cells of the component (page.js, lines 7-9). -/
structure State where
  virtualSolReserves : ℚ
  virtualTokenReservesInput : String
  virtualTokenReserves : ℚ

/-- Initial values of the `useState` cells (page.js, lines 7-9). -/
def initialState : State :=
  { virtualSolReserves := 30
    virtualTokenReservesInput := "1000000000"
    virtualTokenReserves := 1000000000 }

/-- The two JavaScript built-ins the handlers call.  They are not code of the
repository and are taken as parameters: `parseFloat` returns `none` for `NaN`,
`numberToString` is `Number.prototype.toString`. -/
structure Builtins where
  parseFloat : String → Option ℚ
  numberToString : ℚ → String

/-- The handler `handleTokenReservesInputChange` (page.js, lines 15-23); `inputValue`
is `e.target.value`. -/
def handleTokenReservesInputChange (js : Builtins) (s : State) (inputValue : String) :
    State :=
  let s1 := { s with virtualTokenReservesInput := inputValue }
  match js.parseFloat inputValue with
  | some numValue =>
    if numValue > realTokenReserves then { s1 with virtualTokenReserves := numValue }
    else s1
  | none => s1

/-- The handler `changeTokenReserves` (page.js, lines 26-30). -/
def changeTokenReserves (js : Builtins) (s : State) (amount : ℚ) : State :=
  let newValue := max (realTokenReserves + 1) (s.virtualTokenReserves + amount)
  { s with
    virtualTokenReserves := newValue
    virtualTokenReservesInput := js.numberToString newValue }

/-- The handler `handleSolReservesChange` (page.js, lines 101-106); `inputValue` is
`e.target.value`. -/
def handleSolReservesChange (js : Builtins) (s : State) (inputValue : String) : State :=
  match js.parseFloat inputValue with
  | some value => if value > 0 then { s with virtualSolReserves := value } else s
  | none => s

/-- The function `applyPreset` (page.js, lines 109-113). -/
def applyPreset (js : Builtins) (_s : State) (virtualSol virtualTokens : ℚ) : State :=
  { virtualSolReserves := virtualSol
    virtualTokenReserves := virtualTokens
    virtualTokenReservesInput := js.numberToString virtualTokens }

/-- An entry of the table `presets`. -/
structure Preset where
  name : String
  virtualSol : ℚ
  virtualTokens : ℚ

/-- The table `presets` (page.js, lines 116-123). -/
def presets : List Preset :=
  [ { name := "1B tokens", virtualSol := 30, virtualTokens := 1000000000 },
    { name := "10B tokens", virtualSol := 300, virtualTokens := 10000000000 },
    { name := "Large reserves", virtualSol := 3000, virtualTokens := 100000000000 },
    { name := "900M tokens", virtualSol := 30, virtualTokens := 900000000 },
    { name := "850M tokens", virtualSol := 30, virtualTokens := 850000000 },
    { name := "801M tokens", virtualSol := 30, virtualTokens := 801000000 } ]

/-- States the component can be in: the initial state, closed under the four
state-changing operations, `applyPreset` being called on entries of `presets`
only (page.js, the preset buttons). -/
inductive Reachable (js : Builtins) : State → Prop
  | init : Reachable js initialState
  | tokenInput (s : State) (inputValue : String) :
      Reachable js s → Reachable js (handleTokenReservesInputChange js s inputValue)
  | tokenButton (s : State) (amount : ℚ) :
      Reachable js s → Reachable js (changeTokenReserves js s amount)
  | solInput (s : State) (inputValue : String) :
      Reachable js s → Reachable js (handleSolReservesChange js s inputValue)
  | preset (s : State) (p : Preset) :
      Reachable js s → p ∈ presets → Reachable js (applyPreset js s p.virtualSol p.virtualTokens)

/-- The validity condition on the curve parameters held in a state. -/
def ValidParams (s : State) : Prop :=
  realTokenReserves < s.virtualTokenReserves ∧ 0 < s.virtualSolReserves

/-! ## Pushed points and loop invariants -/

/-- The object literal pushed in one pass of the loop of `pricePerIncrementData`
(page.js, lines 46-57), as a function of the loop variables and of
`nextIncrementAmount`. -/
def schedulePoint (virtualSolReserves virtualTokenReserves cumulativeTokens
    previousSolRequired nextIncrementAmount : ℚ) : IncrementPoint :=
  { tokensBought := cumulativeTokens + nextIncrementAmount
    incrementCost := virtualSolReserves * virtualTokenReserves /
        (virtualTokenReserves - cumulativeTokens - nextIncrementAmount) -
      virtualSolReserves - previousSolRequired
    incrementPrice := (virtualSolReserves * virtualTokenReserves /
        (virtualTokenReserves - cumulativeTokens - nextIncrementAmount) -
      virtualSolReserves - previousSolRequired) / nextIncrementAmount
    averagePrice := (virtualSolReserves * virtualTokenReserves /
        (virtualTokenReserves - cumulativeTokens - nextIncrementAmount) -
      virtualSolReserves) / (cumulativeTokens + nextIncrementAmount)
    solTotal := virtualSolReserves * virtualTokenReserves /
        (virtualTokenReserves - cumulativeTokens - nextIncrementAmount) -
      virtualSolReserves }

/-- The object literal pushed in one pass of the loop of `priceCurveData`
(page.js, lines 85-95), as a function of the loop variable `tokensSold`. -/
def curvePoint (virtualSolReserves virtualTokenReserves tokensSold : ℚ) : CurvePoint :=
  { tokensSold := tokensSold
    price := virtualSolReserves * virtualTokenReserves /
      (virtualTokenReserves - tokensSold) / (virtualTokenReserves - tokensSold) * 1000000
    solRequired := virtualSolReserves * virtualTokenReserves /
      (virtualTokenReserves - tokensSold) - virtualSolReserves }

/-- The starting point pushed by `priceCurveData` before its loop (page.js, lines 76-80). -/
def curveOrigin (virtualSolReserves virtualTokenReserves : ℚ) : CurvePoint :=
  { tokensSold := 0
    price := (virtualSolReserves / virtualTokenReserves) * 1000000
    solRequired := 0 }

/-- Invariant of the loop of `pricePerIncrementData`, at the loop head and at both
exits: the walk has made `pts.length` steps of size `inc`, clipped at `rtr`. -/
structure ScheduleInv (vsr vtr rtr inc : ℚ) (pts : List IncrementPoint) (cum prev : ℚ) :
    Prop where
  cum_eq : cum = min (inc * (pts.length : ℚ)) rtr
  prev_eq : prev = vsr * vtr / (vtr - cum) - vsr
  increasing : pts.Pairwise (fun p q => p.tokensBought < q.tokensBought)
  bought_le : ∀ p ∈ pts, p.tokensBought ≤ cum
  product : ∀ p ∈ pts, (vsr + p.solTotal) * (vtr - p.tokensBought) = vsr * vtr
  cost_sum : (pts.map (fun p => p.incrementCost)).sum = prev
  last_eq : ∀ p, pts.getLast? = some p →
    p.tokensBought = cum ∧ p.solTotal = prev ∧
      p.incrementPrice ≤ vsr * vtr / (vtr - cum) ^ 2
  price_mono : pts.Chain' (fun p q => p.incrementPrice ≤ q.incrementPrice)
  head_eq : ∀ p, pts.head? = some p → p = schedulePoint vsr vtr 0 0 (min inc rtr)

/-- Invariant of the loop of `priceCurveData`: `j` points have been pushed, the
origin and the samples `1 .. j-1`, and the loop variable stands at sample `j`. -/
structure CurveInv (vsr vtr maxTokens : ℚ) (j : Nat) (pts : List CurvePoint) (t : ℚ) :
    Prop where
  index_le : j ≤ 101
  var_eq : t = (j : ℚ) * (maxTokens / 100)
  sold_eq : pts.map (fun p => p.tokensSold) =
    (List.range j).map (fun (i : Nat) => (i : ℚ) * (maxTokens / 100))
  product : ∀ p ∈ pts, (vsr + p.solRequired) * (vtr - p.tokensSold) = vsr * vtr
  head_eq : pts.head? = some (curveOrigin vsr vtr)

/-! ## The loops: unfolding, invariants, termination -/

theorem pricePerIncrementLoop_succ (vsr vtr rtr inc : ℚ) (fuel : Nat)
    (pts : List IncrementPoint) (cum prev : ℚ) :
    pricePerIncrementLoop vsr vtr rtr inc (fuel + 1) pts cum prev =
      if cum < rtr then
        if min inc (rtr - cum) ≤ 0 then some pts
        else if (pts ++ [schedulePoint vsr vtr cum prev (min inc (rtr - cum))]).length > 100
          then some (pts ++ [schedulePoint vsr vtr cum prev (min inc (rtr - cum))])
        else pricePerIncrementLoop vsr vtr rtr inc fuel
          (pts ++ [schedulePoint vsr vtr cum prev (min inc (rtr - cum))])
          (cum + min inc (rtr - cum))
          (vsr * vtr / (vtr - cum - min inc (rtr - cum)) - vsr)
      else some pts := rfl

theorem pricePerIncrementLoop_inv (vsr vtr rtr inc : ℚ)
    (Inv : List IncrementPoint → ℚ → ℚ → Prop)
    (hstep : ∀ pts cum prev, pts.length ≤ 100 → Inv pts cum prev → cum < rtr →
      0 < min inc (rtr - cum) →
      Inv (pts ++ [schedulePoint vsr vtr cum prev (min inc (rtr - cum))])
        (cum + min inc (rtr - cum))
        (vsr * vtr / (vtr - cum - min inc (rtr - cum)) - vsr)) :
    ∀ (fuel : Nat) (pts : List IncrementPoint) (cum prev : ℚ) (out : List IncrementPoint),
      pts.length ≤ 100 → Inv pts cum prev →
      pricePerIncrementLoop vsr vtr rtr inc fuel pts cum prev = some out →
      ∃ cum1 prev1, Inv out cum1 prev1 ∧ out.length ≤ 101 ∧
        (rtr ≤ cum1 ∨ out.length = 101 ∨ min inc (rtr - cum1) ≤ 0) := by
  intro fuel
  induction fuel with
  | zero =>
    intro pts cum prev out _ _ h
    simp [pricePerIncrementLoop] at h
  | succ n ih =>
    intro pts cum prev out hlen hinv h
    rw [pricePerIncrementLoop_succ] at h
    split_ifs at h with h1 h2 h3
    · cases h
      exact ⟨cum, prev, hinv, by omega, Or.inr (Or.inr h2)⟩
    · cases h
      have hl : (pts ++ [schedulePoint vsr vtr cum prev (min inc (rtr - cum))]).length
          = pts.length + 1 := by simp
      exact ⟨_, _, hstep pts cum prev hlen hinv h1 (not_le.mp h2), by omega,
        Or.inr (Or.inl (by omega))⟩
    · have hl : (pts ++ [schedulePoint vsr vtr cum prev (min inc (rtr - cum))]).length
          = pts.length + 1 := by simp
      exact ih _ _ _ out (by omega) (hstep pts cum prev hlen hinv h1 (not_le.mp h2)) h
    · cases h
      exact ⟨cum, prev, hinv, by omega, Or.inl (not_lt.mp h1)⟩

theorem pricePerIncrementLoop_terminates (vsr vtr rtr inc : ℚ) :
    ∀ (fuel : Nat) (pts : List IncrementPoint) (cum prev : ℚ),
      pts.length ≤ 100 → 101 ≤ fuel + pts.length →
      ∃ out, pricePerIncrementLoop vsr vtr rtr inc fuel pts cum prev = some out := by
  intro fuel
  induction fuel with
  | zero => intro pts cum prev h1 h2; omega
  | succ n ih =>
    intro pts cum prev hlen hfuel
    rw [pricePerIncrementLoop_succ]
    have hl : (pts ++ [schedulePoint vsr vtr cum prev (min inc (rtr - cum))]).length
          = pts.length + 1 := by simp
    split_ifs with h1 h2 h3
    · exact ⟨_, rfl⟩
    · exact ⟨_, rfl⟩
    · exact ih _ _ _ (by omega) (by omega)
    · exact ⟨_, rfl⟩

theorem scheduleInv_init (vsr vtr rtr inc : ℚ) (hrtr : 0 ≤ rtr) (htok : rtr < vtr) :
    ScheduleInv vsr vtr rtr inc [] 0 0 := by
  have hv : vtr ≠ 0 := ne_of_gt (lt_of_le_of_lt hrtr htok)
  refine ⟨?_, ?_, List.Pairwise.nil, ?_, ?_, rfl, ?_, List.chain'_nil, ?_⟩
  · simp [hrtr]
  · rw [sub_zero, mul_div_assoc, div_self hv, mul_one, sub_self]
  · intro p hp; cases hp
  · intro p hp; cases hp
  · intro p hp; simp at hp
  · intro p hp; simp at hp

/-- Price of one step: with `prev = k/D1 - vsr`, the step from denominator `D1` down
to `D2 = D1 - next` costs `k * next / (D1 * D2)`. -/
theorem step_price (k vsr D1 D2 next : ℚ) (h1 : D1 ≠ 0) (h2 : D2 ≠ 0) (hn : next ≠ 0)
    (hd : D1 - D2 = next) :
    (k / D2 - vsr - (k / D1 - vsr)) / next = k / (D1 * D2) := by
  subst hd
  field_simp
  ring

theorem scheduleInv_step (vsr vtr rtr inc : ℚ) (hsol : 0 < vsr) (hrtr : 0 ≤ rtr)
    (htok : rtr < vtr) (pts : List IncrementPoint) (cum prev : ℚ)
    (hinv : ScheduleInv vsr vtr rtr inc pts cum prev) (hlt : cum < rtr)
    (hnext : 0 < min inc (rtr - cum)) :
    ScheduleInv vsr vtr rtr inc
      (pts ++ [schedulePoint vsr vtr cum prev (min inc (rtr - cum))])
      (cum + min inc (rtr - cum))
      (vsr * vtr / (vtr - cum - min inc (rtr - cum)) - vsr) := by
  obtain ⟨hcum, hprev, hinc, hle, hprod, hsum, hlast, hmono, hhead⟩ := hinv
  set next := min inc (rtr - cum) with hnextdef
  have hnle : cum + next ≤ rtr := by
    have : next ≤ rtr - cum := min_le_right _ _
    linarith
  have hD1 : 0 < vtr - cum := by linarith
  have hD2 : 0 < vtr - cum - next := by linarith
  have hD21 : vtr - cum - next ≤ vtr - cum := by linarith
  have hk : 0 < vsr * vtr := mul_pos hsol (lt_of_le_of_lt hrtr htok)
  have hcum1 : cum = inc * (pts.length : ℚ) := by
    rcases min_cases (inc * (pts.length : ℚ)) rtr with ⟨h, _⟩ | ⟨h, _⟩
    · rw [hcum, h]
    · rw [h] at hcum; exact absurd hcum (ne_of_lt hlt)
  have hprice : (schedulePoint vsr vtr cum prev next).incrementPrice
      = vsr * vtr / ((vtr - cum) * (vtr - cum - next)) := by
    show (vsr * vtr / (vtr - cum - next) - vsr - prev) / next = _
    rw [hprev]
    exact step_price _ _ _ _ _ (ne_of_gt hD1) (ne_of_gt hD2) (ne_of_gt hnext) (by ring)
  have hsub : vtr - (cum + next) = vtr - cum - next := by ring
  refine ⟨?_, ?_, ?_, ?_, ?_, ?_, ?_, ?_, ?_⟩
  · rw [List.length_append, List.length_singleton, Nat.cast_add, Nat.cast_one, mul_add,
      mul_one, ← hcum1, hnextdef, ← min_add_add_left]
    congr 1
    ring
  · rw [hsub]
  · rw [List.pairwise_append]
    refine ⟨hinc, List.pairwise_singleton _ _, ?_⟩
    intro a ha b hb
    rw [List.mem_singleton] at hb
    subst hb
    show a.tokensBought < cum + next
    linarith [hle a ha]
  · intro p hp
    rw [List.mem_append, List.mem_singleton] at hp
    rcases hp with hp | rfl
    · linarith [hle p hp]
    · exact le_refl _
  · intro p hp
    rw [List.mem_append, List.mem_singleton] at hp
    rcases hp with hp | rfl
    · exact hprod p hp
    · show (vsr + (vsr * vtr / (vtr - cum - next) - vsr)) * (vtr - (cum + next)) = vsr * vtr
      rw [hsub]
      have h2 : vtr - cum - next ≠ 0 := ne_of_gt hD2
      field_simp
      ring
  · rw [List.map_append, List.sum_append, hsum]
    show prev + (vsr * vtr / (vtr - cum - next) - vsr - prev + 0) = _
    ring
  · intro p hp
    rw [List.getLast?_concat, Option.some.injEq] at hp
    subst hp
    refine ⟨rfl, rfl, ?_⟩
    rw [hprice, hsub, pow_two]
    apply div_le_div_of_nonneg_left (le_of_lt hk) (mul_pos hD2 hD2)
    exact mul_le_mul_of_nonneg_right hD21 (le_of_lt hD2)
  · rw [List.chain'_append]
    refine ⟨hmono, List.chain'_singleton _, ?_⟩
    intro x hx y hy
    rw [List.head?_cons, Option.mem_def, Option.some.injEq] at hy
    subst hy
    have hx1 := (hlast x hx).2.2
    rw [hprice]
    refine le_trans hx1 ?_
    rw [pow_two]
    apply div_le_div_of_nonneg_left (le_of_lt hk) (mul_pos hD1 hD2)
    exact mul_le_mul_of_nonneg_left hD21 (le_of_lt hD1)
  · intro p hp
    cases pts with
    | nil =>
      have hc0 : cum = 0 := by simpa using hcum1
      have hp0 : prev = 0 := by
        rw [hprev, hc0, sub_zero, mul_div_assoc, div_self (ne_of_gt (lt_of_le_of_lt hrtr htok)),
          mul_one, sub_self]
      rw [List.nil_append, List.head?_cons, Option.some.injEq] at hp
      rw [← hp, hnextdef, hc0, hp0, sub_zero]
    | cons a l =>
      apply hhead
      simpa using hp

/-- The loop of `pricePerIncrementData` returns, and its result satisfies the
invariant at an exit of the loop. -/
theorem pricePerIncrementLoop_spec (vsr vtr rtr inc : ℚ) (hsol : 0 < vsr) (hrtr : 0 < rtr)
    (hinc : 0 < inc) (htok : rtr < vtr) (fuel : Nat) (hfuel : 101 ≤ fuel) :
    ∃ out cum prev, pricePerIncrementLoop vsr vtr rtr inc fuel [] 0 0 = some out ∧
      ScheduleInv vsr vtr rtr inc out cum prev ∧ out.length ≤ 101 ∧
      (rtr ≤ cum ∨ out.length = 101) := by
  obtain ⟨out, hout⟩ := pricePerIncrementLoop_terminates vsr vtr rtr inc fuel [] 0 0
    (by simp) (by simpa using hfuel)
  obtain ⟨cum, prev, hinv, hlen, hexit⟩ :=
    pricePerIncrementLoop_inv vsr vtr rtr inc (ScheduleInv vsr vtr rtr inc)
      (fun pts cum prev _ h1 h2 h3 =>
        scheduleInv_step vsr vtr rtr inc hsol (le_of_lt hrtr) htok pts cum prev h1 h2 h3)
      fuel [] 0 0 out (by simp) (scheduleInv_init vsr vtr rtr inc (le_of_lt hrtr) htok) hout
  refine ⟨out, cum, prev, hout, hinv, hlen, ?_⟩
  rcases hexit with h | h | h
  · exact Or.inl h
  · exact Or.inr h
  · rcases min_le_iff.mp h with h1 | h1
    · exact absurd hinc (not_lt.mpr h1)
    · exact Or.inl (by linarith)

/-- The schedule for the constants of the component: it is returned, it is not
empty, and the walk ends at `realTokenReserves`. -/
theorem pricePerIncrementData_spec (fuel : Nat) (vsr vtr : ℚ) (hfuel : 101 ≤ fuel)
    (hsol : 0 < vsr) (htok : realTokenReserves < vtr) :
    ∃ pts last prev, pricePerIncrementData fuel vsr vtr = some pts ∧
      pts.getLast? = some last ∧
      ScheduleInv vsr vtr realTokenReserves tokenIncrement pts realTokenReserves prev := by
  obtain ⟨out, cum, prev, hout, hinv, _, hexit⟩ :=
    pricePerIncrementLoop_spec vsr vtr realTokenReserves tokenIncrement hsol
      (by norm_num [realTokenReserves]) (by norm_num [tokenIncrement]) htok fuel hfuel
  have hcum : cum = realTokenReserves := by
    have h1 := hinv.cum_eq
    rcases hexit with h | h
    · exact le_antisymm (h1 ▸ min_le_right _ _) h
    · rw [h1, h]
      norm_num [realTokenReserves, tokenIncrement]
  subst hcum
  have hne : out ≠ [] := by
    intro h
    have h1 := hinv.cum_eq
    rw [h] at h1
    norm_num [realTokenReserves] at h1
  obtain ⟨last, hlast⟩ : ∃ last, out.getLast? = some last :=
    ⟨out.getLast hne, List.getLast?_eq_getLast out hne⟩
  exact ⟨out, last, prev, hout, hlast, hinv⟩

theorem priceCurveLoop_succ (vsr vtr maxTokens : ℚ) (fuel : Nat) (pts : List CurvePoint)
    (t : ℚ) :
    priceCurveLoop vsr vtr maxTokens (fuel + 1) pts t =
      if t ≤ maxTokens then
        priceCurveLoop vsr vtr maxTokens fuel (pts ++ [curvePoint vsr vtr t])
          (t + maxTokens / 100)
      else some pts := rfl

theorem priceCurveData_eq (fuel : Nat) (vsr vtr : ℚ) :
    priceCurveData fuel vsr vtr =
      priceCurveLoop vsr vtr (min realTokenReserves 790000000) fuel [curveOrigin vsr vtr]
        (min realTokenReserves 790000000 / 100) := rfl

theorem priceCurveLoop_inv (vsr vtr maxTokens : ℚ) (Inv : List CurvePoint → ℚ → Prop)
    (hstep : ∀ pts t, Inv pts t → t ≤ maxTokens →
      Inv (pts ++ [curvePoint vsr vtr t]) (t + maxTokens / 100)) :
    ∀ (fuel : Nat) (pts : List CurvePoint) (t : ℚ) (out : List CurvePoint),
      Inv pts t → priceCurveLoop vsr vtr maxTokens fuel pts t = some out →
      ∃ t1, Inv out t1 ∧ maxTokens < t1 := by
  intro fuel
  induction fuel with
  | zero =>
    intro pts t out _ h
    simp [priceCurveLoop] at h
  | succ n ih =>
    intro pts t out hinv h
    rw [priceCurveLoop_succ] at h
    split_ifs at h with h1
    · exact ih _ _ out (hstep pts t hinv h1) h
    · cases h
      exact ⟨t, hinv, not_le.mp h1⟩

theorem sample_index_le (maxTokens : ℚ) (hmax : 0 < maxTokens) (j : Nat)
    (h : (j : ℚ) * (maxTokens / 100) ≤ maxTokens) : j ≤ 100 := by
  have h1 : (j : ℚ) ≤ 100 := by
    by_contra hc
    have hc1 : (100 : ℚ) < (j : ℚ) := not_le.mp hc
    have : maxTokens < (j : ℚ) * (maxTokens / 100) := by
      have h2 : (100 : ℚ) * (maxTokens / 100) < (j : ℚ) * (maxTokens / 100) :=
        mul_lt_mul_of_pos_right hc1 (by positivity)
      linarith
    linarith
  exact_mod_cast h1

theorem priceCurveLoop_terminates (vsr vtr maxTokens : ℚ) (hmax : 0 < maxTokens) :
    ∀ (fuel : Nat) (pts : List CurvePoint) (t : ℚ) (j : Nat),
      t = (j : ℚ) * (maxTokens / 100) → j ≤ 101 → 102 ≤ fuel + j →
      ∃ out, priceCurveLoop vsr vtr maxTokens fuel pts t = some out := by
  intro fuel
  induction fuel with
  | zero =>
    intro pts t j _ hj1 hj
    omega
  | succ n ih =>
    intro pts t j ht hj1 hj
    rw [priceCurveLoop_succ]
    split_ifs with h1
    · have hj2 : j ≤ 100 := sample_index_le maxTokens hmax j (ht ▸ h1)
      exact ih _ _ (j + 1) (by rw [ht]; push_cast; ring) (by omega) (by omega)
    · exact ⟨_, rfl⟩

theorem curveInv_init (vsr vtr maxTokens : ℚ) :
    CurveInv vsr vtr maxTokens 1 [curveOrigin vsr vtr] (maxTokens / 100) := by
  refine ⟨by omega, by simp, by simp [curveOrigin, List.range_succ], ?_, rfl⟩
  intro p hp
  rw [List.mem_singleton] at hp
  subst hp
  simp [curveOrigin]

theorem curveInv_step (vsr vtr maxTokens : ℚ) (hmax : 0 < maxTokens) (htok : maxTokens < vtr)
    (j : Nat) (pts : List CurvePoint) (t : ℚ) (hinv : CurveInv vsr vtr maxTokens j pts t)
    (hle : t ≤ maxTokens) :
    CurveInv vsr vtr maxTokens (j + 1) (pts ++ [curvePoint vsr vtr t])
      (t + maxTokens / 100) := by
  obtain ⟨hj, ht, hsold, hprod, hhead⟩ := hinv
  have hj2 : j ≤ 100 := sample_index_le maxTokens hmax j (ht ▸ hle)
  have hD : vtr - t ≠ 0 := ne_of_gt (by linarith)
  refine ⟨by omega, by rw [ht]; push_cast; ring, ?_, ?_, ?_⟩
  · rw [List.map_append, hsold, List.range_succ, List.map_append, List.map_singleton,
      List.map_singleton, ht]
    rfl
  · intro p hp
    rw [List.mem_append, List.mem_singleton] at hp
    rcases hp with hp | rfl
    · exact hprod p hp
    · show (vsr + (vsr * vtr / (vtr - t) - vsr)) * (vtr - t) = vsr * vtr
      field_simp
      ring
  · cases pts with
    | nil => simp at hhead
    | cons a l => simpa using hhead

/-- The curve for the constants of the component: it is returned, and its result
satisfies the loop invariant at index 101. -/
theorem priceCurveData_spec (fuel : Nat) (vsr vtr : ℚ) (hfuel : 101 ≤ fuel)
    (htok : realTokenReserves < vtr) :
    ∃ pts t, priceCurveData fuel vsr vtr = some pts ∧
      CurveInv vsr vtr 790000000 101 pts t := by
  have hmaxeq : min realTokenReserves 790000000 = 790000000 := by
    norm_num [realTokenReserves]
  rw [priceCurveData_eq, hmaxeq]
  have hmax : (0 : ℚ) < 790000000 := by norm_num
  have htok1 : (790000000 : ℚ) < vtr := by
    have : (790000000 : ℚ) < realTokenReserves := by norm_num [realTokenReserves]
    linarith
  obtain ⟨out, hout⟩ := priceCurveLoop_terminates vsr vtr 790000000 hmax fuel
    [curveOrigin vsr vtr] (790000000 / 100) 1 (by norm_num) (by omega) (by omega)
  obtain ⟨t, ⟨j, hinv⟩, hexit⟩ :=
    priceCurveLoop_inv vsr vtr 790000000
      (fun pts t => ∃ j, CurveInv vsr vtr 790000000 j pts t)
      (fun pts t h1 h2 =>
        h1.elim fun j hj => ⟨j + 1, curveInv_step vsr vtr 790000000 hmax htok1 j pts t hj h2⟩)
      fuel [curveOrigin vsr vtr] (790000000 / 100) out
      ⟨1, curveInv_init vsr vtr 790000000⟩ hout
  have hj : j = 101 := by
    have h1 := hinv.index_le
    have h2 : ¬ j ≤ 100 := by
      intro hc
      have h3 : (j : ℚ) ≤ 100 := by exact_mod_cast hc
      rw [hinv.var_eq] at hexit
      linarith
    omega
  subst hj
  exact ⟨out, t, hout, hinv⟩

/-- The curve is returned for every parameter set and starts with the origin point. -/
theorem priceCurveData_head (fuel : Nat) (vsr vtr : ℚ) (hfuel : 101 ≤ fuel) :
    ∃ pts, priceCurveData fuel vsr vtr = some pts ∧
      pts.head? = some (curveOrigin vsr vtr) := by
  rw [priceCurveData_eq]
  have hmax : (0 : ℚ) < min realTokenReserves 790000000 := by norm_num [realTokenReserves]
  obtain ⟨out, hout⟩ := priceCurveLoop_terminates vsr vtr _ hmax fuel
    [curveOrigin vsr vtr] (min realTokenReserves 790000000 / 100) 1 (by norm_num) (by omega)
    (by omega)
  obtain ⟨t, hinv, _⟩ :=
    priceCurveLoop_inv vsr vtr (min realTokenReserves 790000000)
      (fun pts _ => pts.head? = some (curveOrigin vsr vtr))
      (fun pts t h1 _ => by
        cases pts with
        | nil => simp at h1
        | cons a l => simpa using h1)
      fuel [curveOrigin vsr vtr] _ out rfl hout
  exact ⟨out, hout, hinv⟩

/-- First and last point of the schedule for the default parameters 30 and
1,000,000,000. -/
theorem pricePerIncrementData_default_ends (fuel : Nat) (hfuel : 101 ≤ fuel) :
    ∃ pts first last, pricePerIncrementData fuel 30 1000000000 = some pts ∧
      pts.head? = some first ∧ pts.getLast? = some last ∧
      first = schedulePoint 30 1000000000 0 0 10000000 ∧
      last.tokensBought = 800000000 := by
  obtain ⟨pts, last, prev, hpts, hlast, hinv⟩ :=
    pricePerIncrementData_spec fuel 30 1000000000 hfuel (by norm_num)
      (by norm_num [realTokenReserves])
  have hne : pts ≠ [] := by
    intro h
    rw [h] at hlast
    simp at hlast
  obtain ⟨first, hfirst⟩ : ∃ first, pts.head? = some first :=
    ⟨pts.head hne, List.head?_eq_head hne⟩
  have h1 := hinv.head_eq first hfirst
  have h2 := (hinv.last_eq last hlast).1
  have hmin : min tokenIncrement realTokenReserves = 10000000 := by
    norm_num [tokenIncrement, realTokenReserves]
  rw [hmin] at h1
  exact ⟨pts, first, last, hpts, hfirst, hlast, h1, by rw [h2]; rfl⟩

/-! ## The binary64 model on concrete inputs -/

/-- The rounding gives the binary64 numbers nearest to 1/10 and 1/3, resolves ties to
the even neighbour, and fixes 30 and 10^16. -/
theorem roundBinary64_samples :
    roundBinary64 (1 / 10) = some (3602879701896397 / 36028797018963968) ∧
    roundBinary64 (1 / 3) = some (6004799503160661 / 18014398509481984) ∧
    roundBinary64 (2 ^ 53 + 1) = some (2 ^ 53) ∧
    roundBinary64 (2 ^ 53 + 3) = some (2 ^ 53 + 4) ∧
    roundBinary64 30 = some 30 ∧
    roundBinary64 10000000000000000 = some 10000000000000000 := by
  decide!

/-- For the default parameters 30 and 10^9 the binary64 schedule has 80 points and its
first `incrementCost` is the binary64 number 0.30303030303030454. -/
theorem pricePerIncrementDataBinary64_default :
    (pricePerIncrementDataBinary64 101 30 1000000000).map
        (fun pts => (pts.length, (pts.head?).map (fun p => p.incrementCost))) =
      some (80, some (42647723744039 / 140737488355328)) := by
  decide!

/-- For 30 and 10^16 the binary64 schedule has 80 points; the second and third
`incrementPrice` are the binary64 numbers 3.000000248221113e-15 and
2.9999998929497452e-15. -/
theorem pricePerIncrementDataBinary64_large :
    (pricePerIncrementDataBinary64 101 30 10000000000000000).map
        (fun pts => (pts.length, pts[1]?.map (fun p => p.incrementPrice),
          pts[2]?.map (fun p => p.incrementPrice))) =
      some (80, some (3802952115342331 / 1267650600228229401496703205376),
        some (7605903329964737 / 2535301200456458802993406410752)) := by
  decide!

/-- A chain relates the second and the third element of a list. -/
theorem chain_second_third {α : Type} (R : α → α → Prop) (l : List α) (p q : α)
    (hp : l[1]? = some p) (hq : l[2]? = some q) (hc : l.Chain' R) : R p q := by
  match l, hp, hq, hc with
  | [], hp, _, _ => simp at hp
  | [_], hp, _, _ => simp at hp
  | [_, _], _, hq, _ => simp at hq
  | _ :: b :: c :: rest, hp, hq, hc =>
    simp only [List.getElem?_cons_succ, List.getElem?_cons_zero, Option.some.injEq] at hp hq
    subst hp
    subst hq
    exact (List.chain'_cons.mp (List.chain'_cons.mp hc).2).1

/-! ## The claims -/

/-- C1: for every valid parameter set (`virtualSolReserves > 0`,
`virtualTokenReserves > realTokenReserves`, the constants 800,000,000 and 10,000,000),
the schedule computed by `pricePerIncrementData` is returned, its `tokensBought`
sequence is strictly increasing, no element exceeds `realTokenReserves`, and the
last element has `tokensBought` equal to `realTokenReserves`. -/
theorem schedule_tokensBought_increasing (fuel : Nat) (vsr vtr : ℚ) (hfuel : 101 ≤ fuel)
    (hsol : 0 < vsr) (htok : realTokenReserves < vtr) :
    ∃ pts last, pricePerIncrementData fuel vsr vtr = some pts ∧
      pts.Pairwise (fun p q => p.tokensBought < q.tokensBought) ∧
      (∀ p ∈ pts, p.tokensBought ≤ realTokenReserves) ∧
      pts.getLast? = some last ∧ last.tokensBought = realTokenReserves ∧
      realTokenReserves = 800000000 ∧ tokenIncrement = 10000000 := by
  obtain ⟨pts, last, prev, hpts, hlast, hinv⟩ :=
    pricePerIncrementData_spec fuel vsr vtr hfuel hsol htok
  exact ⟨pts, last, hpts, hinv.increasing, hinv.bought_le, hlast,
    (hinv.last_eq last hlast).1, rfl, rfl⟩

theorem schedule_tokensBought_increasing_witness :
    (101 ≤ 101 ∧ (0 : ℚ) < 30 ∧ realTokenReserves < 1000000000) ∧
    ∃ pts last, pricePerIncrementData 101 30 1000000000 = some pts ∧
      pts.Pairwise (fun p q => p.tokensBought < q.tokensBought) ∧
      (∀ p ∈ pts, p.tokensBought ≤ realTokenReserves) ∧
      pts.getLast? = some last ∧ last.tokensBought = realTokenReserves ∧
      realTokenReserves = 800000000 ∧ tokenIncrement = 10000000 :=
  ⟨⟨le_refl _, by norm_num, by norm_num [realTokenReserves]⟩,
    schedule_tokensBought_increasing 101 30 1000000000 (le_refl _) (by norm_num)
      (by norm_num [realTokenReserves])⟩

/-- C2: for valid parameters, every point of the increment schedule and every point
of the price curve (the origin included) lies on the constant-product curve:
`(virtualSolReserves + solRequired) * (virtualTokenReserves - tokensSold)` equals
`k = virtualSolReserves * virtualTokenReserves`, with `solTotal`/`tokensBought` for a
schedule point and `solRequired`/`tokensSold` for a curve point. -/
theorem constant_product_on_points (fuel : Nat) (vsr vtr : ℚ) (hfuel : 101 ≤ fuel)
    (hsol : 0 < vsr) (htok : realTokenReserves < vtr) :
    (∃ pts, pricePerIncrementData fuel vsr vtr = some pts ∧
      ∀ p ∈ pts, (vsr + p.solTotal) * (vtr - p.tokensBought) = vsr * vtr) ∧
    (∃ pts, priceCurveData fuel vsr vtr = some pts ∧
      pts.head? = some (curveOrigin vsr vtr) ∧
      ∀ p ∈ pts, (vsr + p.solRequired) * (vtr - p.tokensSold) = vsr * vtr) := by
  obtain ⟨pts, last, prev, hpts, _, hinv⟩ :=
    pricePerIncrementData_spec fuel vsr vtr hfuel hsol htok
  obtain ⟨cpts, t, hcpts, hcinv⟩ := priceCurveData_spec fuel vsr vtr hfuel htok
  exact ⟨⟨pts, hpts, hinv.product⟩, ⟨cpts, hcpts, hcinv.head_eq, hcinv.product⟩⟩

theorem constant_product_on_points_witness :
    (101 ≤ 101 ∧ (0 : ℚ) < 30 ∧ realTokenReserves < 1000000000) ∧
    (∃ pts, pricePerIncrementData 101 30 1000000000 = some pts ∧
      ∀ p ∈ pts, (30 + p.solTotal) * (1000000000 - p.tokensBought) = 30 * 1000000000) ∧
    (∃ pts, priceCurveData 101 30 1000000000 = some pts ∧
      pts.head? = some (curveOrigin 30 1000000000) ∧
      ∀ p ∈ pts, (30 + p.solRequired) * (1000000000 - p.tokensSold) = 30 * 1000000000) :=
  ⟨⟨le_refl _, by norm_num, by norm_num [realTokenReserves]⟩,
    constant_product_on_points 101 30 1000000000 (le_refl _) (by norm_num)
      (by norm_num [realTokenReserves])⟩

/-- C3: for every valid parameter set, the sum of the `incrementCost` fields over all
points of the increment schedule equals the `solTotal` field of its last point. -/
theorem incrementCost_sum_eq_last_solTotal (fuel : Nat) (vsr vtr : ℚ) (hfuel : 101 ≤ fuel)
    (hsol : 0 < vsr) (htok : realTokenReserves < vtr) :
    ∃ pts last, pricePerIncrementData fuel vsr vtr = some pts ∧
      pts.getLast? = some last ∧
      (pts.map (fun p => p.incrementCost)).sum = last.solTotal := by
  obtain ⟨pts, last, prev, hpts, hlast, hinv⟩ :=
    pricePerIncrementData_spec fuel vsr vtr hfuel hsol htok
  exact ⟨pts, last, hpts, hlast, by rw [hinv.cost_sum, (hinv.last_eq last hlast).2.1]⟩

theorem incrementCost_sum_eq_last_solTotal_witness :
    (101 ≤ 101 ∧ (0 : ℚ) < 30 ∧ realTokenReserves < 1000000000) ∧
    ∃ pts last, pricePerIncrementData 101 30 1000000000 = some pts ∧
      pts.getLast? = some last ∧
      (pts.map (fun p => p.incrementCost)).sum = last.solTotal :=
  ⟨⟨le_refl _, by norm_num, by norm_num [realTokenReserves]⟩,
    incrementCost_sum_eq_last_solTotal 101 30 1000000000 (le_refl _) (by norm_num)
      (by norm_num [realTokenReserves])⟩

/-- C4, as stated, fails on the numbers the code computes: at the valid state
`virtualSolReserves = 30`, `virtualTokenReserves = 10^16` the schedule in binary64
arithmetic has consecutive points `p` (the second) and `q` (the third) with
`q.incrementPrice < p.incrementPrice`. -/
theorem incrementPrice_binary64_counterexample :
    ((0 : ℚ) < 30 ∧ realTokenReserves < 10000000000000000) ∧
    ∃ pts p q, pricePerIncrementDataBinary64 101 30 10000000000000000 = some pts ∧
      pts[1]? = some p ∧ pts[2]? = some q ∧
      p.incrementPrice = 3802952115342331 / 1267650600228229401496703205376 ∧
      q.incrementPrice = 7605903329964737 / 2535301200456458802993406410752 ∧
      q.incrementPrice < p.incrementPrice ∧
      ¬ pts.Chain' (fun p q => p.incrementPrice ≤ q.incrementPrice) := by
  refine ⟨⟨by norm_num, by norm_num [realTokenReserves]⟩, ?_⟩
  have h := pricePerIncrementDataBinary64_large
  cases hpts : pricePerIncrementDataBinary64 101 30 10000000000000000 with
  | none =>
    rw [hpts] at h
    simp at h
  | some pts =>
    rw [hpts] at h
    simp only [Option.map_some', Option.some.injEq, Prod.mk.injEq] at h
    obtain ⟨_, h1, h2⟩ := h
    obtain ⟨p, hp, hp1⟩ := Option.map_eq_some'.mp h1
    obtain ⟨q, hq, hq1⟩ := Option.map_eq_some'.mp h2
    have hlt : q.incrementPrice < p.incrementPrice := by
      rw [hp1, hq1]
      norm_num
    exact ⟨pts, p, q, rfl, hp, hq, hp1, hq1, hlt, fun hc =>
      absurd (chain_second_third _ pts p q hp hq hc) (not_le.mpr hlt)⟩

/-- C4, amended: for every valid parameter set, over exact arithmetic, `incrementPrice`
is non-decreasing along the increment schedule: for consecutive points `p`, `q`
(`q` right after `p`), `p.incrementPrice ≤ q.incrementPrice`. -/
theorem incrementPrice_nondecreasing (fuel : Nat) (vsr vtr : ℚ) (hfuel : 101 ≤ fuel)
    (hsol : 0 < vsr) (htok : realTokenReserves < vtr) :
    ∃ pts, pricePerIncrementData fuel vsr vtr = some pts ∧
      pts.Chain' (fun p q => p.incrementPrice ≤ q.incrementPrice) := by
  obtain ⟨pts, last, prev, hpts, _, hinv⟩ :=
    pricePerIncrementData_spec fuel vsr vtr hfuel hsol htok
  exact ⟨pts, hpts, hinv.price_mono⟩

theorem incrementPrice_nondecreasing_witness :
    (101 ≤ 101 ∧ (0 : ℚ) < 30 ∧ realTokenReserves < 1000000000) ∧
    ∃ pts, pricePerIncrementData 101 30 1000000000 = some pts ∧
      pts.Chain' (fun p q => p.incrementPrice ≤ q.incrementPrice) :=
  ⟨⟨le_refl _, by norm_num, by norm_num [realTokenReserves]⟩,
    incrementPrice_nondecreasing 101 30 1000000000 (le_refl _) (by norm_num)
      (by norm_num [realTokenReserves])⟩

/-- C5, as stated, fails: with `virtualSolReserves = 30` and
`virtualTokenReserves = 1,000,000,000` the first element of the price curve does not
carry the unscaled price `30 / 1,000,000,000`. -/
theorem curve_first_price_unscaled_counterexample :
    ¬ ∃ pts first, priceCurveData 101 30 1000000000 = some pts ∧
      pts.head? = some first ∧ first.tokensSold = 0 ∧
      first.price = 30 / 1000000000 ∧ first.solRequired = 0 := by
  rintro ⟨pts, first, h1, h2, _, h4, _⟩
  obtain ⟨pts1, h5, h6⟩ := priceCurveData_head 101 30 1000000000 (le_refl _)
  rw [h1, Option.some.injEq] at h5
  subst h5
  rw [h2, Option.some.injEq] at h6
  subst h6
  norm_num [curveOrigin] at h4

/-- C5, amended: for every parameter set, the price curve is returned and its first
element has `tokensSold = 0`, `price = (virtualSolReserves / virtualTokenReserves) *
1,000,000` (the initial price in the display scale of the chart) and
`solRequired = 0`. -/
theorem curve_first_point (fuel : Nat) (vsr vtr : ℚ) (hfuel : 101 ≤ fuel) :
    ∃ pts first, priceCurveData fuel vsr vtr = some pts ∧
      pts.head? = some first ∧ first.tokensSold = 0 ∧
      first.price = vsr / vtr * 1000000 ∧ first.solRequired = 0 := by
  obtain ⟨pts, h1, h2⟩ := priceCurveData_head fuel vsr vtr hfuel
  exact ⟨pts, curveOrigin vsr vtr, h1, h2, rfl, rfl, rfl⟩

theorem curve_first_point_witness :
    101 ≤ 101 ∧
    ∃ pts first, priceCurveData 101 30 1000000000 = some pts ∧
      pts.head? = some first ∧ first.tokensSold = 0 ∧
      first.price = 30 / 1000000000 * 1000000 ∧ first.solRequired = 0 :=
  ⟨le_refl _, curve_first_point 101 30 1000000000 (le_refl _)⟩

/-- C6, as stated, fails: with `virtualSolReserves = 30` and
`virtualTokenReserves = 1,000,000,000` the first point of the schedule has
`incrementCost = 10/33`, which does not lie between 0.00015 and 0.000151. -/
theorem first_incrementCost_counterexample :
    ∃ pts first, pricePerIncrementData 101 30 1000000000 = some pts ∧
      pts.head? = some first ∧ first.incrementCost = 10 / 33 ∧
      ¬ (0.00015 < first.incrementCost ∧ first.incrementCost < 0.000151) := by
  obtain ⟨pts, first, last, hpts, hfirst, _, h1, _⟩ :=
    pricePerIncrementData_default_ends 101 (le_refl _)
  have hc : first.incrementCost = 10 / 33 := by
    rw [h1]; norm_num [schedulePoint]
  refine ⟨pts, first, hpts, hfirst, hc, ?_⟩
  rw [hc]
  norm_num

/-- C6, amended: with `virtualSolReserves = 30`, `virtualTokenReserves = 1,000,000,000`
and the constants 800,000,000 and 10,000,000, the first point of the schedule has
`tokensBought = 10,000,000` and `incrementCost = k/(1,000,000,000 - 10,000,000) - 30`,
which is `10/33`, about 0.30303 SOL (between 0.303 and 0.3031), and the last point
has `tokensBought = 800,000,000` exactly. -/
theorem first_and_last_point_default_params (fuel : Nat) (hfuel : 101 ≤ fuel) :
    ∃ pts first last, pricePerIncrementData fuel 30 1000000000 = some pts ∧
      pts.head? = some first ∧ pts.getLast? = some last ∧
      first.tokensBought = 10000000 ∧
      first.incrementCost = 30 * 1000000000 / (1000000000 - 10000000) - 30 ∧
      first.incrementCost = 10 / 33 ∧
      (0.303 < first.incrementCost ∧ first.incrementCost < 0.3031) ∧
      last.tokensBought = 800000000 := by
  obtain ⟨pts, first, last, hpts, hfirst, hlast, h1, h2⟩ :=
    pricePerIncrementData_default_ends fuel hfuel
  refine ⟨pts, first, last, hpts, hfirst, hlast, ?_, ?_, ?_, ?_, h2⟩
  · rw [h1]; norm_num [schedulePoint]
  · rw [h1]; norm_num [schedulePoint]
  · rw [h1]; norm_num [schedulePoint]
  · rw [h1]; norm_num [schedulePoint]

theorem first_and_last_point_default_params_witness :
    101 ≤ 101 ∧
    ∃ pts first last, pricePerIncrementData 101 30 1000000000 = some pts ∧
      pts.head? = some first ∧ pts.getLast? = some last ∧
      first.tokensBought = 10000000 ∧
      first.incrementCost = 30 * 1000000000 / (1000000000 - 10000000) - 30 ∧
      first.incrementCost = 10 / 33 ∧
      (0.303 < first.incrementCost ∧ first.incrementCost < 0.3031) ∧
      last.tokensBought = 800000000 :=
  ⟨le_refl _, first_and_last_point_default_params 101 (le_refl _)⟩

/-- C7: an invalid parameter edit is rejected and leaves the curve parameters
unchanged.  For every state, `handleTokenReservesInputChange` with an input whose
parsed value is non-numeric or at most `realTokenReserves` (in particular exactly
800,000,000) leaves `virtualTokenReserves` and `virtualSolReserves` at their previous
values, and `handleSolReservesChange` with an input whose parsed value is non-numeric
or at most 0 leaves both at their previous values. -/
theorem invalid_edit_rejected (js : Builtins) (s : State) (inputValue : String) :
    ((js.parseFloat inputValue = none ∨
        ∃ v, js.parseFloat inputValue = some v ∧ v ≤ realTokenReserves) →
      (handleTokenReservesInputChange js s inputValue).virtualTokenReserves
          = s.virtualTokenReserves ∧
        (handleTokenReservesInputChange js s inputValue).virtualSolReserves
          = s.virtualSolReserves) ∧
    (js.parseFloat inputValue = some 800000000 →
      (handleTokenReservesInputChange js s inputValue).virtualTokenReserves
          = s.virtualTokenReserves ∧
        (handleTokenReservesInputChange js s inputValue).virtualSolReserves
          = s.virtualSolReserves) ∧
    ((js.parseFloat inputValue = none ∨ ∃ v, js.parseFloat inputValue = some v ∧ v ≤ 0) →
      (handleSolReservesChange js s inputValue).virtualSolReserves = s.virtualSolReserves ∧
        (handleSolReservesChange js s inputValue).virtualTokenReserves
          = s.virtualTokenReserves) := by
  have htoken : (js.parseFloat inputValue = none ∨
        ∃ v, js.parseFloat inputValue = some v ∧ v ≤ realTokenReserves) →
      (handleTokenReservesInputChange js s inputValue).virtualTokenReserves
          = s.virtualTokenReserves ∧
        (handleTokenReservesInputChange js s inputValue).virtualSolReserves
          = s.virtualSolReserves := by
    rintro (h | ⟨v, h, hv⟩)
    · simp [handleTokenReservesInputChange, h]
    · simp [handleTokenReservesInputChange, h, not_lt.mpr hv]
  refine ⟨htoken, ?_, ?_⟩
  · intro h
    exact htoken (Or.inr ⟨800000000, h, by norm_num [realTokenReserves]⟩)
  · rintro (h | ⟨v, h, hv⟩)
    · simp [handleSolReservesChange, h]
    · simp [handleSolReservesChange, h, not_lt.mpr hv]

theorem invalid_edit_rejected_witness :
    ((handleTokenReservesInputChange
        { parseFloat := fun _ => none, numberToString := fun _ => "" }
        initialState "abc").virtualTokenReserves = 1000000000 ∧
      (handleTokenReservesInputChange
        { parseFloat := fun _ => none, numberToString := fun _ => "" }
        initialState "abc").virtualSolReserves = 30) ∧
    ((handleTokenReservesInputChange
        { parseFloat := fun _ => some 800000000, numberToString := fun _ => "" }
        initialState "800000000").virtualTokenReserves = 1000000000 ∧
      (handleTokenReservesInputChange
        { parseFloat := fun _ => some 800000000, numberToString := fun _ => "" }
        initialState "800000000").virtualSolReserves = 30) ∧
    ((handleSolReservesChange
        { parseFloat := fun _ => some 0, numberToString := fun _ => "" }
        initialState "0").virtualSolReserves = 30 ∧
      (handleSolReservesChange
        { parseFloat := fun _ => some 0, numberToString := fun _ => "" }
        initialState "0").virtualTokenReserves = 1000000000) :=
  ⟨(invalid_edit_rejected
      { parseFloat := fun _ => none, numberToString := fun _ => "" }
      initialState "abc").1 (Or.inl rfl),
    (invalid_edit_rejected
      { parseFloat := fun _ => some 800000000, numberToString := fun _ => "" }
      initialState "800000000").2.1 rfl,
    (invalid_edit_rejected
      { parseFloat := fun _ => some 0, numberToString := fun _ => "" }
      initialState "0").2.2 (Or.inr ⟨0, rfl, le_refl _⟩)⟩

/-- C8: `virtualTokenReserves > realTokenReserves` (800,000,000) and
`virtualSolReserves > 0` hold in the initial state and are preserved by every
state-changing operation: `handleTokenReservesInputChange` with any input,
`changeTokenReserves` with any amount, `handleSolReservesChange` with any input, and
`applyPreset` applied to any of the six entries of `presets`.  Hence they hold in
every reachable state. -/
theorem validParams_invariant (js : Builtins) :
    ValidParams initialState ∧
    (∀ s inputValue, ValidParams s →
      ValidParams (handleTokenReservesInputChange js s inputValue)) ∧
    (∀ s amount, ValidParams s → ValidParams (changeTokenReserves js s amount)) ∧
    (∀ s inputValue, ValidParams s → ValidParams (handleSolReservesChange js s inputValue)) ∧
    (presets.length = 6 ∧
      ∀ s, ∀ p ∈ presets, ValidParams (applyPreset js s p.virtualSol p.virtualTokens)) ∧
    (∀ s, Reachable js s → ValidParams s) := by
  have h0 : ValidParams initialState := by
    constructor <;> norm_num [initialState, realTokenReserves]
  have h1 : ∀ s inputValue, ValidParams s →
      ValidParams (handleTokenReservesInputChange js s inputValue) := by
    intro s inputValue hs
    unfold handleTokenReservesInputChange
    cases js.parseFloat inputValue with
    | none => exact hs
    | some v =>
      by_cases hv : v > realTokenReserves
      · simp only [hv, if_true]
        exact ⟨hv, hs.2⟩
      · simp only [hv, if_false]
        exact hs
  have h2 : ∀ s amount, ValidParams s → ValidParams (changeTokenReserves js s amount) := by
    intro s amount hs
    refine ⟨?_, hs.2⟩
    show realTokenReserves < max (realTokenReserves + 1) (s.virtualTokenReserves + amount)
    exact lt_of_lt_of_le (by linarith) (le_max_left _ _)
  have h3 : ∀ s inputValue, ValidParams s →
      ValidParams (handleSolReservesChange js s inputValue) := by
    intro s inputValue hs
    unfold handleSolReservesChange
    cases js.parseFloat inputValue with
    | none => exact hs
    | some v =>
      by_cases hv : v > 0
      · simp only [hv, if_true]
        exact ⟨hs.1, hv⟩
      · simp only [hv, if_false]
        exact hs
  have h4 : ∀ s, ∀ p ∈ presets, ValidParams (applyPreset js s p.virtualSol p.virtualTokens) := by
    intro s p hp
    simp only [presets, List.mem_cons, List.mem_singleton, List.not_mem_nil, or_false] at hp
    rcases hp with rfl | rfl | rfl | rfl | rfl | rfl <;>
      constructor <;> norm_num [applyPreset, realTokenReserves]
  refine ⟨h0, h1, h2, h3, ⟨rfl, h4⟩, ?_⟩
  intro s hs
  induction hs with
  | init => exact h0
  | tokenInput s v _ ih => exact h1 s v ih
  | tokenButton s a _ ih => exact h2 s a ih
  | solInput s v _ ih => exact h3 s v ih
  | preset s p _ hp _ => exact h4 s p hp

theorem validParams_invariant_witness :
    ValidParams (changeTokenReserves
      { parseFloat := fun _ => none, numberToString := fun _ => "" }
      initialState (-100000000)) :=
  (validParams_invariant
    { parseFloat := fun _ => none, numberToString := fun _ => "" }).2.2.1
    initialState (-100000000)
    (validParams_invariant
      { parseFloat := fun _ => none, numberToString := fun _ => "" }).1

/-- C9: for every valid parameter set, the price curve returned by `priceCurveData`
is the origin point followed by exactly 100 samples, the `j`-th sample
(`j = 1..100`) having `tokensSold = j * maxTokens/100` with
`maxTokens = min(realTokenReserves, 790,000,000) = 790,000,000`; the sequence has 101
points, consecutive `tokensSold` values differ by exactly 7,900,000, and the last
point has `tokensSold = 790,000,000`. -/
theorem curve_samples_evenly_spaced (fuel : Nat) (vsr vtr : ℚ) (hfuel : 101 ≤ fuel)
    (_hsol : 0 < vsr) (htok : realTokenReserves < vtr) :
    ∃ pts, priceCurveData fuel vsr vtr = some pts ∧
      min realTokenReserves 790000000 = 790000000 ∧
      pts.length = 101 ∧
      pts.head? = some (curveOrigin vsr vtr) ∧
      (∀ j : Nat, 1 ≤ j → j ≤ 100 →
        (pts.map (fun p => p.tokensSold))[j]? =
          some ((j : ℚ) * (min realTokenReserves 790000000 / 100))) ∧
      (∀ j : Nat, j < 100 → ∃ a b, (pts.map (fun p => p.tokensSold))[j]? = some a ∧
        (pts.map (fun p => p.tokensSold))[j + 1]? = some b ∧ b - a = 7900000) ∧
      (pts.map (fun p => p.tokensSold)).getLast? = some 790000000 := by
  obtain ⟨pts, t, hpts, hinv⟩ := priceCurveData_spec fuel vsr vtr hfuel htok
  have hmaxeq : min realTokenReserves 790000000 = 790000000 := by
    norm_num [realTokenReserves]
  have hsold := hinv.sold_eq
  have hlen : pts.length = 101 := by
    have := congrArg List.length hsold
    simpa using this
  have hget : ∀ j : Nat, j ≤ 100 →
      (pts.map (fun p => p.tokensSold))[j]? = some ((j : ℚ) * (790000000 / 100)) := by
    intro j hj
    rw [hsold, List.getElem?_map, List.getElem?_range (by omega)]
    rfl
  refine ⟨pts, hpts, hmaxeq, hlen, hinv.head_eq, ?_, ?_, ?_⟩
  · intro j _ hj
    rw [hmaxeq]
    exact hget j hj
  · intro j hj
    refine ⟨_, _, hget j (by omega), hget (j + 1) (by omega), ?_⟩
    push_cast
    ring
  · rw [List.getLast?_eq_getElem?, List.length_map, hlen, hget 100 (le_refl _)]
    norm_num

theorem curve_samples_evenly_spaced_witness :
    (101 ≤ 101 ∧ (0 : ℚ) < 30 ∧ realTokenReserves < 1000000000) ∧
    ∃ pts, priceCurveData 101 30 1000000000 = some pts ∧
      min realTokenReserves 790000000 = 790000000 ∧
      pts.length = 101 ∧
      pts.head? = some (curveOrigin 30 1000000000) ∧
      (∀ j : Nat, 1 ≤ j → j ≤ 100 →
        (pts.map (fun p => p.tokensSold))[j]? =
          some ((j : ℚ) * (min realTokenReserves 790000000 / 100))) ∧
      (∀ j : Nat, j < 100 → ∃ a b, (pts.map (fun p => p.tokensSold))[j]? = some a ∧
        (pts.map (fun p => p.tokensSold))[j + 1]? = some b ∧ b - a = 7900000) ∧
      (pts.map (fun p => p.tokensSold)).getLast? = some 790000000 :=
  ⟨⟨le_refl _, by norm_num, by norm_num [realTokenReserves]⟩,
    curve_samples_evenly_spaced 101 30 1000000000 (le_refl _) (by norm_num)
      (by norm_num [realTokenReserves])⟩

/-- C10, as stated, fails: with `realTokenReserves = 800,000,000` and
`tokenIncrement = 1,000,000` as parameters of the loop (an 800-step walk), the
returned schedule has 101 points, one more than 100. -/
theorem schedule_cap_counterexample :
    ∃ pts, pricePerIncrementLoop 30 1000000000 800000000 1000000 101 [] 0 0 = some pts ∧
      pts.length = 101 ∧ ¬ pts.length ≤ 100 := by
  obtain ⟨pts, cum, prev, hpts, hinv, hlen, hexit⟩ :=
    pricePerIncrementLoop_spec 30 1000000000 800000000 1000000 (by norm_num) (by norm_num)
      (by norm_num) (by norm_num) 101 (le_refl _)
  have h101 : pts.length = 101 := by
    rcases hexit with h | h
    · exfalso
      have h1 := hinv.cum_eq
      have h2 : (pts.length : ℚ) ≤ 101 := by exact_mod_cast hlen
      have h3 : cum ≤ 1000000 * (pts.length : ℚ) := h1 ▸ min_le_left _ _
      linarith
    · exact h
  exact ⟨pts, hpts, h101, by omega⟩

/-- C10, amended: taking `realTokenReserves` and `tokenIncrement` as arbitrary positive
parameters of the loop in `pricePerIncrementData`, the loop terminates (101
evaluations of the loop condition always suffice) and the returned schedule never
contains more than 101 points: a longer walk is truncated at 101 points, no error
is raised. -/
theorem schedule_loop_terminates_capped (vsr vtr rtr inc : ℚ) (fuel : Nat)
    (_hrtr : 0 < rtr) (_hinc : 0 < inc) (hfuel : 101 ≤ fuel) :
    ∃ pts, pricePerIncrementLoop vsr vtr rtr inc fuel [] 0 0 = some pts ∧
      pts.length ≤ 101 := by
  obtain ⟨out, hout⟩ := pricePerIncrementLoop_terminates vsr vtr rtr inc fuel [] 0 0
    (by simp) (by simpa using hfuel)
  obtain ⟨_, _, _, hlen, _⟩ :=
    pricePerIncrementLoop_inv vsr vtr rtr inc (fun _ _ _ => True)
      (fun _ _ _ _ _ _ _ => trivial) fuel [] 0 0 out (by simp) trivial hout
  exact ⟨out, hout, hlen⟩

theorem schedule_loop_terminates_capped_witness :
    ((0 : ℚ) < 800000000 ∧ (0 : ℚ) < 1000000 ∧ 101 ≤ 101) ∧
    ∃ pts, pricePerIncrementLoop 30 1000000000 800000000 1000000 101 [] 0 0 = some pts ∧
      pts.length ≤ 101 :=
  ⟨⟨by norm_num, by norm_num, le_refl _⟩,
    schedule_loop_terminates_capped 30 1000000000 800000000 1000000 101 (by norm_num)
      (by norm_num) (le_refl _)⟩

end BondingCurve
